import Mathlib

/-!
Shallow embedding of the connection (contact) detection and classification
subsystem of the web-ifc-viewer repository, together with theorems settling
the specification claims about it.

Source files embedded here:
* `src/ifc-viewer/src/connection-utils.ts` (`FastIntersectionDetector`:
  `findIntersection`, `raycastIntersection`, `createIntersectionVisualization`,
  `classifyIntersectionType`, `calculateMeasurements`)
* `src/ifc-viewer/src/components/Connections.ts` (`findConnections`,
  `updateElementConnections`, `refinePointIntersections`,
  `isIntersectionMultiElement`, `analyzeConnections`)
* `src/ifc-viewer/src/components/PropertiesPanel.ts` (the second `Connections`
  revision: `findIntersection` distance gate, `getMinimumDistance`,
  `findPreciseTouchingPoints`, `removeDuplicatePoints`)
* `src/unnamed/part_007` (`classifyIntersectionType`, PCA revision)

Numeric model: JavaScript numbers are embedded as exact rationals `ℚ`.
Comparisons of a Euclidean distance against a nonnegative threshold `t` are
embedded as the equivalent comparison of the squared distance against `t ^ 2`
(both sides nonnegative, squaring is strictly monotone), which keeps every
predicate decidable.  Sums of Euclidean norms (polyline length, fan area),
which have no squared form, are embedded in `ℝ` via `Real.sqrt`.  Where the
boundary behaviour of IEEE special values matters (the NaN filter of
`createIntersectionVisualization`), the scalar type `JSNum` with explicit
`nan` / `inf` / `negInf` values is used instead.
-/

/-- A 3D vector with exact rational coordinates (world space). -/
structure Vec3 where
  x : ℚ
  y : ℚ
  z : ℚ
deriving DecidableEq, Repr

namespace Vec3

/-- Componentwise subtraction, `THREE.Vector3.subVectors`. -/
def sub (a b : Vec3) : Vec3 := ⟨a.x - b.x, a.y - b.y, a.z - b.z⟩

/-- Componentwise addition, `THREE.Vector3.add`. -/
def add (a b : Vec3) : Vec3 := ⟨a.x + b.x, a.y + b.y, a.z + b.z⟩

/-- Scalar division, `THREE.Vector3.divideScalar`. -/
def divScalar (a : Vec3) (s : ℚ) : Vec3 := ⟨a.x / s, a.y / s, a.z / s⟩

/-- Cross product, `THREE.Vector3.cross` / `crossVectors`. -/
def cross (a b : Vec3) : Vec3 :=
  ⟨a.y * b.z - a.z * b.y, a.z * b.x - a.x * b.z, a.x * b.y - a.y * b.x⟩

/-- Dot product, `THREE.Vector3.dot`. -/
def dot (a b : Vec3) : ℚ := a.x * b.x + a.y * b.y + a.z * b.z

/-- Squared Euclidean norm (`THREE.Vector3.lengthSq`). -/
def normSq (a : Vec3) : ℚ := a.x ^ 2 + a.y ^ 2 + a.z ^ 2

/-- Squared distance between two points (`THREE.Vector3.distanceToSquared`). -/
def sqDist (a b : Vec3) : ℚ := normSq (sub a b)

/-- Euclidean norm of a vector, in `ℝ` (`THREE.Vector3.length`). -/
noncomputable def norm (a : Vec3) : ℝ := Real.sqrt (normSq a : ℝ)

/-- Euclidean distance between two points, in `ℝ`
(`THREE.Vector3.distanceTo`). -/
noncomputable def dist (a b : Vec3) : ℝ := norm (sub a b)

theorem sqDist_comm (a b : Vec3) : sqDist a b = sqDist b a := by
  simp only [sqDist, normSq, sub]
  ring

end Vec3

/-- The connection type tag, `"point" | "line" | "surface"`. -/
inductive ConnType where
  | point
  | line
  | surface
deriving DecidableEq, Repr

/-! ## Contact Classifier

`connection-utils.ts`, second revision, `classifyIntersectionType`
(lines 1002-1006):

    if (points.length <= 2) return "point";
    if (points.length <= 4) return "line";
    return "surface";
-/

/-- Embedding of `FastIntersectionDetector.classifyIntersectionType`
(`connection-utils.ts:1002-1006`): classification by cardinality alone. -/
def classifyIntersectionType (points : List Vec3) : ConnType :=
  if points.length ≤ 2 then .point
  else if points.length ≤ 4 then .line
  else .surface

/-- The type decision of `createIntersectionVisualization`
(`connection-utils.ts:224-231`).  `surfaceOk` models whether the fan surface
geometry was successfully built and validated (`surfaceGeometry !== null`):

    if (uniquePoints.length <= 2) type = "point";
    else if (!surfaceGeometry || uniquePoints.length <= 4) type = "line";
    else type = "surface";
-/
def visConnectionType (n : ℕ) (surfaceOk : Bool) : ConnType :=
  if n ≤ 2 then .point
  else if !surfaceOk || n ≤ 4 then .line
  else .surface

/-- The cardinality gates of the PCA revision `classifyIntersectionType`
(`src/unnamed/part_007:166-200`).  The eigenvalue analysis performed for five
or more points (covariance matrix, cubic eigenvalue solver, axis-ratio tests)
is abstracted as the parameter `deep`; the claims considered here constrain
only the cardinality gates, which are independent of it:

    if (points.length <= 2) return "point";
    if (points.length <= 4) return "line";
    ... eigenvalue analysis ...
-/
def classifyPCAGate (deep : List Vec3 → ConnType) (points : List Vec3) : ConnType :=
  if points.length ≤ 2 then .point
  else if points.length ≤ 4 then .line
  else deep points

/-! ## Proximity Filter

`connection-utils.ts:60-63` (`FastIntersectionDetector.findIntersection`):

    const boxA = new THREE.Box3().setFromObject(obj1);
    const boxB = new THREE.Box3().setFromObject(obj2);
    if (!boxA.intersectsBox(boxB)) return null;

and `PropertiesPanel.ts` (`getMinimumDistance` and the 1cm gate of the
second-revision `findIntersection`).
-/

/-- A world-space axis-aligned bounding box (`THREE.Box3`). -/
structure Box3 where
  bmin : Vec3
  bmax : Vec3
deriving DecidableEq, Repr

/-- Embedding of `THREE.Box3.intersectsBox`: closed-interval overlap test on each axis
(touching boxes count as intersecting). -/
def intersectsBox (a b : Box3) : Bool :=
  decide (b.bmax.x ≥ a.bmin.x) && decide (b.bmin.x ≤ a.bmax.x) &&
  decide (b.bmax.y ≥ a.bmin.y) && decide (b.bmin.y ≤ a.bmax.y) &&
  decide (b.bmax.z ≥ a.bmin.z) && decide (b.bmin.z ≤ a.bmax.z)

/-- Squared form of `getMinimumDistance` (`PropertiesPanel.ts`):

    const dx = Math.max(box1.min.x - box2.max.x, box2.min.x - box1.max.x, 0);
    ... dy ... dz ...
    return Math.sqrt(dx * dx + dy * dy + dz * dz);

We keep the sum of squares; the source compares the square root against `0.01`,
which is equivalent to comparing this value against `0.01 ^ 2`. -/
def minDistSq (a b : Box3) : ℚ :=
  let dx := max (a.bmin.x - b.bmax.x) (max (b.bmin.x - a.bmax.x) 0)
  let dy := max (a.bmin.y - b.bmax.y) (max (b.bmin.y - a.bmax.y) 0)
  let dz := max (a.bmin.z - b.bmax.z) (max (b.bmin.z - a.bmax.z) 0)
  dx ^ 2 + dy ^ 2 + dz ^ 2

/-- The admission decision of the second-revision `findIntersection`
(`PropertiesPanel.ts`): first the 1cm minimum-distance gate
(`if (minDist > 0.01) return null`), then the detector's own strict AABB check
(`connection-utils.ts:63`).  A pair proceeds to contact-point discovery only if
both pass. -/
def findIntersectionAdmits (a b : Box3) : Bool :=
  if minDistSq a b > (1 / 100 : ℚ) ^ 2 then false else intersectsBox a b

/-! ## Point Deduplicator

Two distinct source functions perform greedy tolerance deduplication:

* `createIntersectionVisualization` (`connection-utils.ts:125-142`) with a
  fixed `threshold = 0.01` and an `isNaN` skip per point — embedded below over
  `JSNum` coordinates as `uniquePointsJS`, because its NaN branch is the
  subject of a claim;
* `removeDuplicatePoints(points, threshold)` (`PropertiesPanel.ts`) with a
  caller-supplied threshold and no NaN check — embedded over `Vec3` as
  `removeDuplicatePoints`.
-/

/-- Whether two points are strictly within `tol` of each other:
`point.distanceTo(uniquePoint) < threshold`, in squared form. -/
def closePt (tol : ℚ) (a b : Vec3) : Bool := decide (Vec3.sqDist a b < tol ^ 2)

/-- Loop of `removeDuplicatePoints` (`PropertiesPanel.ts`): scan points in
order, keeping a point only if it is not within `tol` of an already-accepted
point; `acc` is the `unique` array built so far. -/
def removeDupAux (tol : ℚ) (acc : List Vec3) : List Vec3 → List Vec3
  | [] => acc
  | p :: rest =>
    if acc.any (fun u => closePt tol p u) then removeDupAux tol acc rest
    else removeDupAux tol (acc ++ [p]) rest

/-- Embedding of `removeDuplicatePoints(points, threshold)` (`PropertiesPanel.ts`). -/
def removeDuplicatePoints (tol : ℚ) (points : List Vec3) : List Vec3 :=
  removeDupAux tol [] points

/-- An IEEE-style scalar: an exact rational, one of the two infinities, or
NaN.  Models the JavaScript `number` values reachable at the point-collection
boundary. -/
inductive JSNum where
  | fin (q : ℚ)
  | inf
  | negInf
  | nan
deriving DecidableEq, Repr

namespace JSNum

/-- JavaScript `isNaN`. -/
def isNaN : JSNum → Bool
  | nan => true
  | _ => false

/-- JavaScript `Number.isFinite`. -/
def isFinite : JSNum → Bool
  | fin _ => true
  | _ => false

/-- IEEE subtraction on the modelled values. -/
def sub : JSNum → JSNum → JSNum
  | nan, _ => nan
  | _, nan => nan
  | fin a, fin b => fin (a - b)
  | fin _, inf => negInf
  | fin _, negInf => inf
  | inf, fin _ => inf
  | inf, inf => nan
  | inf, negInf => inf
  | negInf, fin _ => negInf
  | negInf, inf => negInf
  | negInf, negInf => nan

/-- IEEE squaring of a difference term. -/
def sq : JSNum → JSNum
  | nan => nan
  | fin a => fin (a ^ 2)
  | inf => inf
  | negInf => inf

/-- IEEE addition restricted to the nonnegative values produced by `sq`. -/
def addNN : JSNum → JSNum → JSNum
  | nan, _ => nan
  | _, nan => nan
  | inf, _ => inf
  | _, inf => inf
  | negInf, _ => negInf
  | _, negInf => negInf
  | fin a, fin b => fin (a + b)

end JSNum

/-- A 3D point whose coordinates may be IEEE special values. -/
structure JVec3 where
  x : JSNum
  y : JSNum
  z : JSNum
deriving DecidableEq, Repr

/-- Squared distance of two `JVec3`, with IEEE propagation of NaN and
infinities. -/
def jSqDist (a b : JVec3) : JSNum :=
  ((a.x.sub b.x).sq.addNN (a.y.sub b.y).sq).addNN (a.z.sub b.z).sq

/-- The test `point.distanceTo(uniquePoint) < threshold` of
`connection-utils.ts:134` on IEEE values: `false` whenever the distance is NaN
or infinite, and the squared comparison otherwise (`Math.sqrt` is monotone and
`threshold > 0`). -/
def jCloseLt (a b : JVec3) (tol : ℚ) : Bool :=
  match jSqDist a b with
  | .fin s => decide (s < tol ^ 2)
  | _ => false

/-- Loop body of the filter/dedup pass of `createIntersectionVisualization`
(`connection-utils.ts:129-142`):

    for (const point of points) {
      if (isNaN(point.x) || isNaN(point.y) || isNaN(point.z)) continue;
      let isDuplicate = false;
      for (const uniquePoint of uniquePoints) {
        if (point.distanceTo(uniquePoint) < threshold) { isDuplicate = true; break; }
      }
      if (!isDuplicate) uniquePoints.push(point);
    }

with `threshold = 0.01`. -/
def uniquePointsAux (acc : List JVec3) : List JVec3 → List JVec3
  | [] => acc
  | p :: rest =>
    if p.x.isNaN || p.y.isNaN || p.z.isNaN then uniquePointsAux acc rest
    else if acc.any (fun u => jCloseLt p u (1 / 100)) then uniquePointsAux acc rest
    else uniquePointsAux (acc ++ [p]) rest

/-- The `uniquePoints` array computed by `createIntersectionVisualization`
(`connection-utils.ts:125-142`). -/
def uniquePointsJS (points : List JVec3) : List JVec3 :=
  uniquePointsAux [] points

/-! ## Measurement Engine

`calculateMeasurements` (`connection-utils.ts:242-271`): `length` is the sum
of consecutive distances (always computed); `area` is the centroid triangle
fan and is written onto the result object only when `points.length >= 3` —
for fewer points the `area` key is left absent, modelled as `none`.
-/

/-- List indexing with the all-zero vector as default; source accesses
`points[i]` and `points[(i + 1) % points.length]` are always in bounds. -/
def nthPt (points : List Vec3) (i : ℕ) : Vec3 := points.getD i ⟨0, 0, 0⟩

/-- Centroid of a point list (`center.add(p)` folded, then
`divideScalar(points.length)`). -/
def centroid (points : List Vec3) : Vec3 :=
  (points.foldl Vec3.add ⟨0, 0, 0⟩).divScalar points.length

/-- Fan area about the centroid (`connection-utils.ts:253-267`): for each `i`,
half the norm of the cross product of the edge vectors from the centroid to
`points[i]` and to `points[(i+1) % n]`. -/
noncomputable def areaFan (points : List Vec3) : ℝ :=
  let c := centroid points
  let n := points.length
  ∑ i ∈ Finset.range n,
    Vec3.norm (Vec3.cross ((nthPt points i).sub c) ((nthPt points ((i + 1) % n)).sub c)) / 2

/-- Polyline length (`connection-utils.ts:246-249`): sum of distances between
consecutive points. -/
noncomputable def lengthSum (points : List Vec3) : ℝ :=
  ∑ i ∈ Finset.range (points.length - 1),
    Vec3.dist (nthPt points i) (nthPt points (i + 1))

/-- The measurements object of `calculateMeasurements`
(`connection-utils.ts:242-271`); `area = none` models the absent key. -/
structure Measurements where
  mlength : ℝ
  area : Option ℝ

/-- Embedding of `FastIntersectionDetector.calculateMeasurements`
(`connection-utils.ts:242-271`). -/
noncomputable def calculateMeasurements (points : List Vec3) : Measurements :=
  { mlength := lengthSum points
    area := if 3 ≤ points.length then some (areaFan points) else none }

/-! ## Geometry Sampler and Contact Point Finder

`raycastIntersection` (`connection-utils.ts:82-120`, identical in
`src/unnamed/part_007:75-112`) and `findPreciseTouchingPoints`
(`PropertiesPanel.ts`).  The THREE raycaster is abstracted as a function
returning the list of intersections sorted nearest-first
(`raycaster.intersectObject(meshB)`); the world transform
(`applyMatrix4(matrixWorld)`) is abstracted as a function on points.
-/

/-- One raycast hit: `{ distance, point }` as returned by
`THREE.Raycaster.intersectObject` (sorted by distance, nearest first). -/
structure Hit where
  hdist : ℚ
  pt : Vec3
deriving DecidableEq, Repr

/-- The six axis-aligned ray directions (`rayDirections`,
`connection-utils.ts:93-100`). -/
def rayDirections : List Vec3 :=
  [⟨1, 0, 0⟩, ⟨-1, 0, 0⟩, ⟨0, 1, 0⟩, ⟨0, -1, 0⟩, ⟨0, 0, 1⟩, ⟨0, 0, -1⟩]

/-- Vertex sampling stride: `Math.max(1, Math.floor(count / budget))`
(budget 100 in `raycastIntersection`, 50 in `findPreciseTouchingPoints`). -/
def sampleStride (count budget : ℕ) : ℕ := max 1 (count / budget)

/-- The sampled vertices of the loop `for (let i = 0; i < count; i += stride)`:
exactly the entries at indices that are multiples of the stride. -/
def sampledPoints (budget : ℕ) (positions : List Vec3) : List Vec3 :=
  (List.range positions.length).filterMap fun i =>
    if i % sampleStride positions.length budget = 0 then positions[i]? else none

/-- Embedding of `FastIntersectionDetector.raycastIntersection`
(`connection-utils.ts:82-120`): for each sampled vertex of mesh A
(world-transformed by `world`), for each of the six directions, if the ray
into mesh B hits anything, push the nearest hit point — with no distance
test and no early exit:

    for (const direction of rayDirections) {
      this.raycaster.set(v, direction);
      const intersects = this.raycaster.intersectObject(meshB);
      if (intersects.length > 0) {
        intersectionPoints.push(intersects[0].point.clone());
      }
    }
-/
def raycastIntersection (world : Vec3 → Vec3) (positionA : List Vec3)
    (intersect : Vec3 → Vec3 → List Hit) : List Vec3 :=
  (sampledPoints 100 positionA).flatMap fun v0 =>
    rayDirections.filterMap fun d => ((intersect (world v0) d).head?).map Hit.pt

/-- The per-sample direction loop of `findPreciseTouchingPoints`
(`PropertiesPanel.ts`): take the first direction whose nearest hit is strictly
closer than the 1mm threshold, and stop there (`break`); directions whose
nearest hit is too far are skipped and the scan continues:

    for (const dir of directions) {
      raycaster.set(point1, dir.normalize());
      const intersects = raycaster.intersectObject(mesh2);
      if (intersects.length > 0 && intersects[0].distance < threshold) {
        touchingPoints.push(intersects[0].point.clone());
        break;
      }
    }
-/
def preciseSample (intersect : Vec3 → Vec3 → List Hit) (p : Vec3) : Option Vec3 :=
  rayDirections.findSome? fun d =>
    ((intersect p d).head?).bind fun h =>
      if h.hdist < (1 / 1000 : ℚ) then some h.pt else none

/-- Mesh data for the precise finder: a vertex position buffer and its world
transform. -/
structure MeshData where
  positions : List Vec3
  world : Vec3 → Vec3

/-- Embedding of `findPreciseTouchingPoints` (`PropertiesPanel.ts`): for every mesh pair,
sample mesh 1's vertices with budget 50, collect at most one touching point
per sample via `preciseSample`, and deduplicate the collected points with the
1mm threshold (`return this.removeDuplicatePoints(touchingPoints, threshold)`).
`intersect m2` abstracts `raycaster.intersectObject(mesh2)`. -/
def findPreciseTouchingPoints {M2 : Type} (meshes1 : List MeshData) (meshes2 : List M2)
    (intersect : M2 → Vec3 → Vec3 → List Hit) : List Vec3 :=
  removeDuplicatePoints (1 / 1000)
    (meshes1.flatMap fun m1 =>
      meshes2.flatMap fun m2 =>
        (sampledPoints 50 m1.positions).filterMap fun v0 =>
          preciseSample (intersect m2) (m1.world v0))

/-! ## Connection Graph Builder

`Connections.ts` (`findConnections` lines 203-248, `updateElementConnections`
lines 378-391, `analyzeConnections` lines 75-151, `refinePointIntersections`
lines 959-1011, `isIntersectionMultiElement` lines 1017-1042).  The geometric
result of `findIntersection(element1.object, element2.object)` is abstracted
as an oracle indexed by the two elements' positions in the scene list, since
it depends only on the two objects' geometry.
-/

/-- Element identity as carried by `ElementInfo` (`Connections.ts:9-13`);
the `object` field (geometry) is abstracted into the intersection oracle. -/
structure ElementInfo where
  expressID : ℕ
  modelID : ℕ
deriving DecidableEq, Repr

/-- The connection id (`Connections.ts:222`):

    const connectionId = `<elem1-expressID>-<elem2-expressID>`;

built from the two expressIDs in discovery order. -/
def connectionId (a b : ElementInfo) : String :=
  toString a.expressID ++ "-" ++ toString b.expressID

/-- A `Connection` record (`Connections.ts:15-29`), restricted to the fields
the claims are about. -/
structure Connection where
  cid : String
  e1 : ElementInfo
  e2 : ElementInfo
  ctype : ConnType
deriving DecidableEq, Repr

/-- Embedding of `Map.set` on a string-keyed JavaScript `Map` held as an insertion-ordered
association list: replace in place if the key exists, else append. -/
def mapSet (k : String) (v : Connection) :
    List (String × Connection) → List (String × Connection)
  | [] => [(k, v)]
  | (k', v') :: rest =>
    if k' = k then (k, v) :: rest else (k', v') :: mapSet k v rest

/-- Add a connection id to one element's entry of the reverse index
(a `Map<number, Set<string>>` keyed by expressID; the `Set` is held as a
duplicate-free insertion-ordered list). -/
def indexAdd (idx : List (ℕ × List String)) (eid : ℕ) (cid : String) :
    List (ℕ × List String) :=
  match idx with
  | [] => [(eid, [cid])]
  | (k, s) :: rest =>
    if k = eid then (k, if cid ∈ s then s else s ++ [cid]) :: rest
    else (k, s) :: indexAdd rest eid cid

/-- Embedding of `updateElementConnections(expressId1, expressId2, connectionId)`
(`Connections.ts:378-391`): record the connection id under both expressIDs. -/
def updateElementConnections (idx : List (ℕ × List String)) (e1 e2 : ℕ)
    (cid : String) : List (ℕ × List String) :=
  indexAdd (indexAdd idx e1 cid) e2 cid

/-- The mutable state the pair loop of `findConnections` updates: the
`connections` map and the `elementConnections` reverse index. -/
structure AnalysisState where
  conns : List (String × Connection)
  index : List (ℕ × List String)
deriving DecidableEq, Repr

/-- Body of the pair loop (`Connections.ts:220-243`): on a positive
intersection result, build the id, store the connection, and update the
reverse index. -/
def processPair (st : AnalysisState) (a b : ElementInfo) (r : Option ConnType) :
    AnalysisState :=
  match r with
  | none => st
  | some t =>
    let cid := connectionId a b
    { conns := mapSet cid ⟨cid, a, b, t⟩ st.conns
      index := updateElementConnections st.index a.expressID b.expressID cid }

/-- Embedding of `findConnections(elements)` (`Connections.ts:203-248`): enumerate ordered
index pairs `i < j` and process each; `oracle i j` abstracts the result type
of `findIntersection(elements[i].object, elements[j].object)` (`none` = no
connection). -/
def findConnections (elements : List ElementInfo) (oracle : ℕ → ℕ → Option ConnType) :
    AnalysisState :=
  (List.range elements.length).foldl
    (fun st i =>
      (List.range elements.length).foldl
        (fun st2 j =>
          if i < j then
            match elements[i]?, elements[j]? with
            | some a, some b => processPair st2 a b (oracle i j)
            | _, _ => st2
          else st2)
        st)
    ⟨[], []⟩

/-- The connection map stored by `analyzeConnections`
(`Connections.ts:130-138`): the result of `findConnections` is stored and
visualized directly; no refinement pass runs on it
(`refinePointIntersections` and `collectRawIntersections` have no call sites
in the repository). -/
def analyzeConnectionsResult (elements : List ElementInfo)
    (oracle : ℕ → ℕ → Option ConnType) : List (String × Connection) :=
  (findConnections elements oracle).conns

/-- Projection of a stored connection onto its identity-relevant fields: the
map key, the record's id, the two expressIDs, and the type.  Everything except
the `modelID` fields of the two elements. -/
def connKey (kc : String × Connection) : String × String × ℕ × ℕ × ConnType :=
  (kc.1, kc.2.cid, kc.2.e1.expressID, kc.2.e2.expressID, kc.2.ctype)

/-- A raw intersection point tagged with the pair that produced it
(`RawIntersection`, `Connections.ts:44-47`). -/
structure RawIntersection where
  point : Vec3
  pairA : ElementInfo
  pairB : ElementInfo
deriving DecidableEq, Repr

/-- The bucket key of `refinePointIntersections` (`Connections.ts:964-971`):
each coordinate divided by the 1mm tolerance and rounded
(`Math.round(raw.point.x / tolerance)`; JavaScript `Math.round` is
`⌊x + 1/2⌋`, which is Mathlib's `round` on `ℚ`). -/
def locKey (p : Vec3) : ℤ × ℤ × ℤ :=
  (round (p.x / (1 / 1000 : ℚ)), round (p.y / (1 / 1000 : ℚ)), round (p.z / (1 / 1000 : ℚ)))

/-- Append an id to a duplicate-free list (`Set.add`). -/
def setAdd (s : List ℕ) (x : ℕ) : List ℕ := if x ∈ s then s else s ++ [x]

/-- The distinct expressIDs contributed to one bucket
(`Connections.ts:973-981`): both elements of the pair are added for every raw
point whose key matches. -/
def bucketIds (raws : List RawIntersection) (k : ℤ × ℤ × ℤ) : List ℕ :=
  raws.foldl
    (fun s r =>
      if locKey r.point = k then setAdd (setAdd s r.pairA.expressID) r.pairB.expressID
      else s)
    []

/-- Embedding of `isIntersectionMultiElement(expA, expB, multiElementPoints, tolerance)`
(`Connections.ts:1017-1042`): scan the raw intersections for the pair (in
either order) and test whether any of its points falls into a bucket with at
least three distinct contributing expressIDs. -/
def isIntersectionMultiElement (raws : List RawIntersection) (expA expB : ℕ) : Bool :=
  raws.any fun r =>
    (decide (r.pairA.expressID = expA) && decide (r.pairB.expressID = expB) ||
     decide (r.pairA.expressID = expB) && decide (r.pairB.expressID = expA)) &&
    decide (3 ≤ (bucketIds raws (locKey r.point)).length)

/-- Embedding of `refinePointIntersections(connections)` (`Connections.ts:959-1011`):
delete every `point`-type connection whose pair has no raw intersection in a
multi-element (≥ 3 distinct expressIDs) bucket; other connections are kept. -/
def refinePointIntersections (raws : List RawIntersection)
    (conns : List (String × Connection)) : List (String × Connection) :=
  conns.filter fun kc =>
    kc.2.ctype ≠ .point ||
      isIntersectionMultiElement raws kc.2.e1.expressID kc.2.e2.expressID

/-! ## Theorems -/

/-- Helper: a three-way `max` with `0` is zero iff both differences are
nonpositive. -/
theorem max_gap_eq_zero_iff (a b : ℚ) : max a (max b 0) = 0 ↔ a ≤ 0 ∧ b ≤ 0 := by
  constructor
  · intro h
    constructor
    · calc a ≤ max a (max b 0) := le_max_left _ _
        _ = 0 := h
    · calc b ≤ max b 0 := le_max_left _ _
        _ ≤ max a (max b 0) := le_max_right _ _
        _ = 0 := h
  · rintro ⟨ha, hb⟩
    rw [max_eq_right hb]
    exact max_eq_right ha

/-- Helper: a sum of three squares of rationals vanishes iff each does. -/
theorem sq3_eq_zero_iff (a b c : ℚ) :
    a ^ 2 + b ^ 2 + c ^ 2 = 0 ↔ a = 0 ∧ b = 0 ∧ c = 0 := by
  constructor
  · intro h
    refine ⟨?_, ?_, ?_⟩ <;> nlinarith [sq_nonneg a, sq_nonneg b, sq_nonneg c]
  · rintro ⟨rfl, rfl, rfl⟩
    ring

/-- C6: for every CanonicalPointSet, the classifiers return `point` for 1 or
2 points, `line` for exactly 3 or 4 points, and can return `surface` only for
at least 5 points — for `classifyIntersectionType`, the PCA revision's gates,
and the `createIntersectionVisualization` type decision. -/
theorem classifier_cardinality_gates :
    ∀ (pts : List Vec3) (deep : List Vec3 → ConnType) (n : ℕ) (sOk : Bool),
      (pts.length = 1 ∨ pts.length = 2 →
        classifyIntersectionType pts = .point ∧ classifyPCAGate deep pts = .point) ∧
      (pts.length = 3 ∨ pts.length = 4 →
        classifyIntersectionType pts = .line ∧ classifyPCAGate deep pts = .line) ∧
      (classifyIntersectionType pts = .surface → 5 ≤ pts.length) ∧
      (n = 1 ∨ n = 2 → visConnectionType n sOk = .point) ∧
      (n = 3 ∨ n = 4 → visConnectionType n sOk = .line) ∧
      (visConnectionType n sOk = .surface → 5 ≤ n) := by
  intro pts deep n sOk
  refine ⟨?_, ?_, ?_, ?_, ?_, ?_⟩
  · rintro (h | h) <;>
      simp [classifyIntersectionType, classifyPCAGate, h]
  · rintro (h | h) <;>
      simp [classifyIntersectionType, classifyPCAGate, h]
  · intro h
    by_contra hlt
    push_neg at hlt
    interval_cases hn : pts.length <;> simp [classifyIntersectionType, hn] at h
  · rintro (h | h) <;> simp [visConnectionType, h]
  · rintro (h | h) <;> simp [visConnectionType, h]
  · intro h
    by_contra hlt
    push_neg at hlt
    interval_cases n <;> simp [visConnectionType] at h

/-- C5 (amended): the composite admission decision — PropertiesPanel's 1cm
minimum-distance gate followed by the detector's strict AABB check — is
exactly the strict AABB check, and the strict AABB check passes exactly when
the minimum distance between the boxes is zero.  The 1cm distance threshold
never admits a pair that the strict overlap test rejects. -/
theorem proximity_admits_iff_overlap :
    ∀ a b : Box3,
      findIntersectionAdmits a b = intersectsBox a b ∧
      (intersectsBox a b = true ↔ minDistSq a b = 0) := by
  intro a b
  have hiff : intersectsBox a b = true ↔ minDistSq a b = 0 := by
    simp only [intersectsBox, minDistSq, Bool.and_eq_true, decide_eq_true_eq, ge_iff_le]
    rw [sq3_eq_zero_iff, max_gap_eq_zero_iff, max_gap_eq_zero_iff, max_gap_eq_zero_iff]
    simp only [sub_nonpos]
    tauto
  refine ⟨?_, hiff⟩
  by_cases hgate : minDistSq a b > (1 / 100 : ℚ) ^ 2
  · have hfalse : intersectsBox a b = false := by
      by_cases h : intersectsBox a b = true
      · have h0 := hiff.1 h
        rw [h0] at hgate
        norm_num at hgate
      · simpa using h
    rw [findIntersectionAdmits, if_pos hgate, hfalse]
  · rw [findIntersectionAdmits, if_neg hgate]

/-- C5 counterexample: two unit boxes separated by a 1mm gap along x.  Their
minimum AABB distance is within the 1cm threshold, yet the detector's strict
AABB check — and hence the composite admission — rejects the pair, contrary
to the claim that pairs within ~1cm are admitted. -/
theorem proximity_gap_pair_rejected :
    intersectsBox ⟨⟨0,0,0⟩, ⟨1,1,1⟩⟩ ⟨⟨1 + 1/1000, 0, 0⟩, ⟨2,1,1⟩⟩ = false ∧
    findIntersectionAdmits ⟨⟨0,0,0⟩, ⟨1,1,1⟩⟩ ⟨⟨1 + 1/1000, 0, 0⟩, ⟨2,1,1⟩⟩ = false ∧
    minDistSq ⟨⟨0,0,0⟩, ⟨1,1,1⟩⟩ ⟨⟨1 + 1/1000, 0, 0⟩, ⟨2,1,1⟩⟩ ≤ (1/100 : ℚ) ^ 2 := by
  have h1 : intersectsBox ⟨⟨0,0,0⟩, ⟨1,1,1⟩⟩ ⟨⟨1 + 1/1000, 0, 0⟩, ⟨2,1,1⟩⟩ = false := by
    simp only [intersectsBox]
    norm_num
  have h2 : minDistSq ⟨⟨0,0,0⟩, ⟨1,1,1⟩⟩ ⟨⟨1 + 1/1000, 0, 0⟩, ⟨2,1,1⟩⟩ = (1/1000 : ℚ) ^ 2 := by
    simp only [minDistSq]
    rw [show ((1:ℚ) + 1/1000 - 1) = 1/1000 by norm_num]
    rw [show max (1/1000 : ℚ) 0 = 1/1000 by norm_num [max_eq_left]]
    rw [show max ((0:ℚ) - 2) (1/1000 : ℚ) = 1/1000 by norm_num [max_eq_right]]
    norm_num [max_def]
  have h3 : findIntersectionAdmits ⟨⟨0,0,0⟩, ⟨1,1,1⟩⟩ ⟨⟨1 + 1/1000, 0, 0⟩, ⟨2,1,1⟩⟩ = false := by
    rw [findIntersectionAdmits]
    split
    · rfl
    · exact h1
  refine ⟨h1, h3, ?_⟩
  rw [h2]
  norm_num

/-- C4 counterexample: a five-point set whose fourth point lies 100 units off
the plane of the first three (far beyond the 1mm planarity tolerance the
claim requires), yet `classifyIntersectionType` classifies it as `surface`,
where the claim mandates `line`. -/
theorem classifier_ignores_planarity :
    classifyIntersectionType [⟨0,0,0⟩, ⟨1,0,0⟩, ⟨0,1,0⟩, ⟨0,0,100⟩, ⟨3,7,11⟩] = .surface ∧
    (Vec3.dot (Vec3.cross (Vec3.sub ⟨1,0,0⟩ ⟨0,0,0⟩) (Vec3.sub ⟨0,1,0⟩ ⟨0,0,0⟩))
        (Vec3.sub ⟨0,0,100⟩ ⟨0,0,0⟩)) ^ 2 >
      (1/1000 : ℚ) ^ 2 *
        Vec3.normSq (Vec3.cross (Vec3.sub ⟨1,0,0⟩ ⟨0,0,0⟩) (Vec3.sub ⟨0,1,0⟩ ⟨0,0,0⟩)) := by
  constructor
  · decide
  · norm_num [Vec3.dot, Vec3.cross, Vec3.sub, Vec3.normSq]

/-- C4 (amended): for every point set with at least 5 points,
`classifyIntersectionType` returns `surface` unconditionally — no planarity
or area test is performed — and the `createIntersectionVisualization` type
decision returns `surface` or `line` depending only on whether the fan
surface geometry was built. -/
theorem classifier_of_five_or_more :
    ∀ (pts : List Vec3) (n : ℕ) (sOk : Bool),
      (5 ≤ pts.length → classifyIntersectionType pts = .surface) ∧
      (5 ≤ n → visConnectionType n sOk = if sOk then .surface else .line) := by
  intro pts n sOk
  constructor
  · intro h
    have h2 : ¬ pts.length ≤ 2 := by omega
    have h4 : ¬ pts.length ≤ 4 := by omega
    simp [classifyIntersectionType, h2, h4]
  · intro h
    have h2 : ¬ n ≤ 2 := by omega
    have h4 : ¬ n ≤ 4 := by omega
    cases sOk <;> simp [visConnectionType, h2, h4]

/-- C4 witness: the amended theorem applied to a concrete five-point set. -/
theorem classifier_of_five_or_more_witness :
    classifyIntersectionType [⟨0,0,0⟩, ⟨1,0,0⟩, ⟨0,1,0⟩, ⟨0,0,7⟩, ⟨2,2,2⟩] = .surface ∧
    visConnectionType 6 true = .surface := by
  refine ⟨(classifier_of_five_or_more [⟨0,0,0⟩, ⟨1,0,0⟩, ⟨0,1,0⟩, ⟨0,0,7⟩, ⟨2,2,2⟩] 6 true).1 (by decide), ?_⟩
  have := (classifier_of_five_or_more [] 6 true).2 (by decide)
  simpa using this

/-- C6 witness: the cardinality-gate theorem applied to concrete one-point
and three-point sets. -/
theorem classifier_cardinality_gates_witness :
    classifyIntersectionType [⟨0,0,0⟩] = .point ∧ visConnectionType 3 true = .line := by
  refine ⟨?_, ?_⟩
  · exact ((classifier_cardinality_gates [⟨0,0,0⟩] (fun _ => .point) 3 true).1 (Or.inl rfl)).1
  · exact (classifier_cardinality_gates [⟨0,0,0⟩] (fun _ => .point) 3 true).2.2.2.2.1 (Or.inl rfl)

/-- Helper: squaring a difference of IEEE scalars is symmetric in the
operands. -/
theorem JSNum.sq_sub_comm (a b : JSNum) : (a.sub b).sq = (b.sub a).sq := by
  cases a <;> cases b <;> (simp [JSNum.sub, JSNum.sq]; try ring)

/-- Helper: symmetry of the squared IEEE distance. -/
theorem jSqDist_comm (a b : JVec3) : jSqDist a b = jSqDist b a := by
  rw [jSqDist, jSqDist, JSNum.sq_sub_comm a.x b.x, JSNum.sq_sub_comm a.y b.y,
    JSNum.sq_sub_comm a.z b.z]

/-- Helper: symmetry of the closeness test. -/
theorem jCloseLt_symm (a b : JVec3) (t : ℚ) : jCloseLt a b t = jCloseLt b a t := by
  rw [jCloseLt, jCloseLt, jSqDist_comm a b]

/-- Helper: every pair of distinct points surviving the dedup loop is at
least the tolerance apart, given that the accumulator already is. -/
theorem uniquePointsAux_pairwise :
    ∀ (xs acc : List JVec3),
      acc.Pairwise (fun a b => jCloseLt a b (1/100) = false) →
      (uniquePointsAux acc xs).Pairwise (fun a b => jCloseLt a b (1/100) = false) := by
  intro xs
  induction xs with
  | nil => intro acc h; simpa [uniquePointsAux] using h
  | cons p rest ih =>
    intro acc hacc
    rw [uniquePointsAux]
    split_ifs with h1 h2
    · exact ih acc hacc
    · exact ih acc hacc
    · apply ih
      refine List.pairwise_append.2 ⟨hacc, List.pairwise_singleton _ _, ?_⟩
      intro u hu b hb
      rw [List.mem_singleton] at hb
      rw [hb]
      have hany : acc.any (fun u => jCloseLt p u (1/100)) = false := by
        simpa using h2
      have hfu := List.any_eq_false.mp hany u hu
      rw [jCloseLt_symm]
      simpa using hfu

/-- Helper: every point surviving the dedup loop passed the NaN filter. -/
theorem uniquePointsAux_nanfree :
    ∀ (xs acc : List JVec3),
      (∀ q ∈ acc, q.x.isNaN = false ∧ q.y.isNaN = false ∧ q.z.isNaN = false) →
      ∀ q ∈ uniquePointsAux acc xs,
        q.x.isNaN = false ∧ q.y.isNaN = false ∧ q.z.isNaN = false := by
  intro xs
  induction xs with
  | nil => intro acc h; simpa [uniquePointsAux] using h
  | cons p rest ih =>
    intro acc hacc
    rw [uniquePointsAux]
    split_ifs with h1 h2
    · exact ih acc hacc
    · exact ih acc hacc
    · apply ih
      intro q hq
      rcases List.mem_append.mp hq with hq | hq
      · exact hacc q hq
      · rw [List.mem_singleton] at hq
        subst hq
        simpa [Bool.or_eq_true, and_assoc] using h1

/-- Helper: on an input that is NaN-free, pairwise tolerance-separated, and
entirely far from the accumulator, the dedup loop accepts every point. -/
theorem uniquePointsAux_of_clean :
    ∀ (xs acc : List JVec3),
      (∀ q ∈ xs, q.x.isNaN = false ∧ q.y.isNaN = false ∧ q.z.isNaN = false) →
      (∀ u ∈ acc, ∀ q ∈ xs, jCloseLt q u (1/100) = false) →
      xs.Pairwise (fun a b => jCloseLt a b (1/100) = false) →
      uniquePointsAux acc xs = acc ++ xs := by
  intro xs
  induction xs with
  | nil => intro acc _ _ _; simp [uniquePointsAux]
  | cons p rest ih =>
    intro acc hnan hfar hpw
    obtain ⟨hx, hy, hz⟩ := hnan p (List.mem_cons_self p rest)
    have hany : acc.any (fun u => jCloseLt p u (1/100)) = false :=
      List.any_eq_false.mpr fun u hu => by
        rw [hfar u hu p (List.mem_cons_self p rest)]
        simp
    rw [uniquePointsAux, if_neg (by simp [hx, hy, hz]), if_neg (by rw [hany]; simp)]
    have hfar2 : ∀ u ∈ acc ++ [p], ∀ q ∈ rest, jCloseLt q u (1/100) = false := by
      intro u hu q hq
      rcases List.mem_append.mp hu with hu | hu
      · exact hfar u hu q (List.mem_cons_of_mem p hq)
      · rw [List.mem_singleton] at hu
        subst hu
        rw [jCloseLt_symm]
        exact (List.pairwise_cons.mp hpw).1 q hq
    have step := ih (acc ++ [p]) (fun q hq => hnan q (List.mem_cons_of_mem p hq)) hfar2
      (List.Pairwise.of_cons hpw)
    rw [step, List.append_assoc, List.singleton_append]

/-- C7: the Point Deduplicator of `createIntersectionVisualization` greedily
discards points within the tolerance of an accepted point; consequently no
two output points are closer than the tolerance, and re-running it on its
own output returns the output unchanged. -/
theorem dedup_separated_and_idempotent :
    ∀ pts : List JVec3,
      (uniquePointsJS pts).Pairwise (fun a b => jCloseLt a b (1/100) = false) ∧
      uniquePointsJS (uniquePointsJS pts) = uniquePointsJS pts := by
  intro pts
  have hpw := uniquePointsAux_pairwise pts [] List.Pairwise.nil
  refine ⟨hpw, ?_⟩
  have := uniquePointsAux_of_clean (uniquePointsJS pts) []
    (uniquePointsAux_nanfree pts [] (by simp)) (by simp) hpw
  simpa [uniquePointsJS] using this

/-- C9 (amended): the point-collection boundary of
`createIntersectionVisualization` filters exactly the points with a NaN
coordinate: every point in the canonical set passes the `isNaN` tests. -/
theorem canonical_points_nan_free :
    ∀ (pts : List JVec3), ∀ p ∈ uniquePointsJS pts,
      p.x.isNaN = false ∧ p.y.isNaN = false ∧ p.z.isNaN = false := by
  intro pts
  exact uniquePointsAux_nanfree pts [] (by simp)

/-- C9 counterexample: a point with an infinite x coordinate is not filtered
by the `isNaN` checks — it survives into the canonical point set, although
the claim says all non-finite coordinates are filtered out. -/
theorem infinite_point_not_filtered :
    uniquePointsJS [⟨.inf, .fin 0, .fin 0⟩] = [⟨.inf, .fin 0, .fin 0⟩] ∧
    JSNum.isFinite .inf = false := by
  constructor
  · decide
  · decide

/-- C9 witness: the amended theorem applied to a concrete finite point. -/
theorem canonical_points_nan_free_witness :
    (JSNum.fin 0).isNaN = false ∧ (JSNum.fin 1).isNaN = false ∧
      (JSNum.fin 2).isNaN = false :=
  canonical_points_nan_free [⟨.fin 0, .fin 1, .fin 2⟩] ⟨.fin 0, .fin 1, .fin 2⟩
    (by decide)

/-- Helper: every point output by the dedup scan came from the accumulator or
from the input. -/
theorem removeDupAux_subset :
    ∀ (xs acc : List Vec3) (tol : ℚ) (q : Vec3),
      q ∈ removeDupAux tol acc xs → q ∈ acc ∨ q ∈ xs := by
  intro xs
  induction xs with
  | nil => intro acc tol q hq; exact Or.inl (by simpa [removeDupAux] using hq)
  | cons p rest ih =>
    intro acc tol q hq
    rw [removeDupAux] at hq
    split_ifs at hq with h1
    · rcases ih acc tol q hq with h | h
      · exact Or.inl h
      · exact Or.inr (List.mem_cons_of_mem p h)
    · rcases ih (acc ++ [p]) tol q hq with h | h
      · rcases List.mem_append.mp h with h | h
        · exact Or.inl h
        · rw [List.mem_singleton] at h
          exact Or.inr (h ▸ List.mem_cons_self p rest)
      · exact Or.inr (List.mem_cons_of_mem p h)

/-- C3 (amended): the cited raw contact-point finder `raycastIntersection`
records, for every sampled point and every one of the six directions, the
nearest intersection whenever one exists — with no distance threshold and no
early exit — while `findPreciseTouchingPoints` implements the claimed
behaviour: each of its output points stems from a nearest hit strictly below
the 1mm threshold, at most one per sample. -/
theorem raycast_records_all_directions :
    ∀ (world : Vec3 → Vec3) (positionA : List Vec3)
      (intersect : Vec3 → Vec3 → List Hit) (p : Vec3),
      (p ∈ raycastIntersection world positionA intersect ↔
        ∃ v ∈ sampledPoints 100 positionA, ∃ d ∈ rayDirections, ∃ h : Hit,
          (intersect (world v) d).head? = some h ∧ h.pt = p) ∧
      (∀ {M2 : Type} (meshes1 : List MeshData) (meshes2 : List M2)
          (itf : M2 → Vec3 → Vec3 → List Hit),
        p ∈ findPreciseTouchingPoints meshes1 meshes2 itf →
        ∃ m1 ∈ meshes1, ∃ m2 ∈ meshes2, ∃ v ∈ sampledPoints 50 m1.positions,
          ∃ d ∈ rayDirections, ∃ h : Hit,
            (itf m2 (m1.world v) d).head? = some h ∧
              h.hdist < 1/1000 ∧ h.pt = p) := by
  intro world positionA intersect p
  constructor
  · simp [raycastIntersection, List.mem_flatMap, List.mem_filterMap,
      Option.map_eq_some']
  · intro M2 meshes1 meshes2 itf hmem
    have hcoll : p ∈
        meshes1.flatMap (fun m1 =>
          meshes2.flatMap fun m2 =>
            (sampledPoints 50 m1.positions).filterMap fun v0 =>
              preciseSample (itf m2) (m1.world v0)) := by
      rcases removeDupAux_subset _ [] (1/1000) p hmem with h | h
      · simp at h
      · exact h
    simp only [List.mem_flatMap, List.mem_filterMap] at hcoll
    obtain ⟨m1, hm1, m2, hm2, v, hv, hsample⟩ := hcoll
    obtain ⟨d, hd, hbind⟩ := List.exists_of_findSome?_eq_some hsample
    obtain ⟨h, hhead, hif⟩ := Option.bind_eq_some.mp hbind
    by_cases hlt : h.hdist < (1/1000 : ℚ)
    · rw [if_pos hlt] at hif
      exact ⟨m1, hm1, m2, hm2, v, hv, d, hd, h, hhead, hlt, Option.some.inj hif⟩
    · rw [if_neg hlt] at hif
      exact absurd hif (by simp)

/-- C3 counterexample: with an abstract raycaster whose every hit lies at
distance 5 (far beyond the 1mm threshold), `raycastIntersection` still
records one point per direction — the claim requires none to be recorded; and
with every hit at distance 1/2000 (all six directions qualify),
it records all six points for the single sample — the claim requires the scan
to stop after the first qualifying direction. -/
theorem raycast_no_threshold_no_break :
    raycastIntersection id [⟨0,0,0⟩] (fun _ d => [⟨5, d⟩]) = rayDirections ∧
    raycastIntersection id [⟨0,0,0⟩] (fun _ d => [⟨1/2000, d⟩]) = rayDirections ∧
    rayDirections.length = 6 := by
  refine ⟨by decide, by decide, by decide⟩

/-- C3 witness: the amended theorem applied to a one-vertex mesh and a
raycaster hitting at distance 1/2000 in every direction. -/
theorem raycast_records_all_directions_witness :
    ∃ m1 ∈ [({ positions := [⟨0,0,0⟩], world := id } : MeshData)], ∃ m2 ∈ [()],
      ∃ v ∈ sampledPoints 50 m1.positions, ∃ d ∈ rayDirections, ∃ h : Hit,
        ((fun (_ : Unit) (_ d : Vec3) => [(⟨1/2000, d⟩ : Hit)]) m2 (m1.world v) d).head? = some h ∧
          h.hdist < 1/1000 ∧ h.pt = ⟨1,0,0⟩ := by
  refine (raycast_records_all_directions id [] (fun _ _ => []) ⟨1,0,0⟩).2
    [{ positions := [⟨0,0,0⟩], world := id }] [()]
    (fun (_ : Unit) (_ d : Vec3) => [(⟨1/2000, d⟩ : Hit)]) ?_
  norm_num [findPreciseTouchingPoints, removeDuplicatePoints, removeDupAux,
    sampledPoints, sampleStride, preciseSample, rayDirections, List.findSome?,
    closePt]

/-- C8 counterexample: for an empty point list `calculateMeasurements` leaves
the `area` key absent (`none`) — it does not return `0` as the claim states. -/
theorem area_absent_below_three_points :
    (calculateMeasurements ([] : List Vec3)).area = none ∧
    (none : Option ℝ) ≠ some 0 := by
  exact ⟨rfl, by simp⟩

/-- C8 (amended): `area` is the centroid-fan sum, the `area` key is set only
for at least 3 points (left absent otherwise), and the planar unit square
yields exactly 1. -/
theorem area_fan_unit_square :
    (∀ pts : List Vec3, pts.length < 3 → (calculateMeasurements pts).area = none) ∧
    (calculateMeasurements [⟨0,0,0⟩, ⟨1,0,0⟩, ⟨1,1,0⟩, ⟨0,1,0⟩]).area = some 1 := by
  constructor
  · intro pts h
    rw [calculateMeasurements]
    simp only [if_neg (by omega : ¬ 3 ≤ pts.length)]
  · rw [calculateMeasurements]
    rw [if_pos (by norm_num)]
    have hc : centroid [⟨0,0,0⟩, ⟨1,0,0⟩, ⟨1,1,0⟩, ⟨0,1,0⟩] = ⟨1/2, 1/2, 0⟩ := by
      norm_num [centroid, Vec3.add, Vec3.divScalar, List.foldl]
    rw [areaFan, hc]
    norm_num [Finset.sum_range_succ, nthPt, Vec3.sub, Vec3.cross, Vec3.norm,
      Vec3.normSq]
    have h4 : Real.sqrt 4 = 2 := by
      rw [show (4:ℝ) = 2 ^ 2 by norm_num]
      exact Real.sqrt_sq (by norm_num)
    rw [h4]
    norm_num

/-- Helper: an invariant preserved by every fold step holds of the fold. -/
theorem foldl_preserve {α β : Type _} (P : α → Prop) (f : α → β → α) :
    ∀ (l : List β) (init : α), P init → (∀ st x, P st → P (f st x)) →
      P (l.foldl f init) := by
  intro l
  induction l with
  | nil => intro init h _; simpa using h
  | cons x xs ih => intro init h hstep; exact ih _ (hstep init x h) hstep

/-- Helper: a relation preserved by corresponding fold steps relates the two
folds. -/
theorem foldl_rel {α α' β : Type _} (R : α → α' → Prop) (f : α → β → α)
    (g : α' → β → α') :
    ∀ (l : List β) (init : α) (init' : α'), R init init' →
      (∀ st st' x, R st st' → R (f st x) (g st' x)) →
      R (l.foldl f init) (l.foldl g init') := by
  intro l
  induction l with
  | nil => intro init init' h _; simpa using h
  | cons x xs ih => intro init init' h hstep; exact ih _ _ (hstep init init' x h) hstep

/-- Helper: membership after a `Map.set` is the new entry or an old one. -/
theorem mapSet_mem :
    ∀ (l : List (String × Connection)) (k : String) (v : Connection)
      (kc : String × Connection), kc ∈ mapSet k v l → kc = (k, v) ∨ kc ∈ l := by
  intro l
  induction l with
  | nil => intro k v kc h; exact Or.inl (by simpa [mapSet] using h)
  | cons kv rest ih =>
    intro k v kc h
    rw [mapSet] at h
    split_ifs at h with hk
    · rcases List.mem_cons.mp h with h | h
      · exact Or.inl h
      · exact Or.inr (List.mem_cons_of_mem kv h)
    · rcases List.mem_cons.mp h with h | h
      · exact Or.inr (h ▸ List.mem_cons_self kv rest)
      · rcases ih k v kc h with h | h
        · exact Or.inl h
        · exact Or.inr (List.mem_cons_of_mem kv h)

/-- Helper: keys after a `Map.set` are the new key or old keys. -/
theorem mapSet_key_mem :
    ∀ (l : List (String × Connection)) (k : String) (v : Connection)
      (key : String), key ∈ (mapSet k v l).map Prod.fst →
        key = k ∨ key ∈ l.map Prod.fst := by
  intro l k v key h
  rw [List.mem_map] at h
  obtain ⟨kc, hkc, rfl⟩ := h
  rcases mapSet_mem l k v kc hkc with h | h
  · exact Or.inl (by rw [h])
  · exact Or.inr (List.mem_map.mpr ⟨kc, h, rfl⟩)

/-- Helper: `Map.set` preserves distinctness of keys. -/
theorem mapSet_nodup :
    ∀ (l : List (String × Connection)) (k : String) (v : Connection),
      (l.map Prod.fst).Nodup → ((mapSet k v l).map Prod.fst).Nodup := by
  intro l
  induction l with
  | nil => intro k v _; simp [mapSet]
  | cons kv rest ih =>
    intro k v hnd
    rw [List.map_cons, List.nodup_cons] at hnd
    rw [mapSet]
    split_ifs with hk
    · rw [List.map_cons, List.nodup_cons]
      exact ⟨by simpa [hk] using hnd.1, hnd.2⟩
    · rw [List.map_cons, List.nodup_cons]
      refine ⟨fun hmem => ?_, ih k v hnd.2⟩
      rcases mapSet_key_mem rest k v kv.1 hmem with h | h
      · exact hk h
      · exact hnd.1 h

/-- C1 (amended): on a positive result `findConnections` keys the stored
record by the id built from the two expressIDs in discovery order — the
lower-index element first — and the connections map never holds two records
under one id.  (The id is not symmetric under swapping the discovery order;
see the counterexample.) -/
theorem connection_map_wellformed :
    ∀ (elements : List ElementInfo) (oracle : ℕ → ℕ → Option ConnType),
      ((findConnections elements oracle).conns.map Prod.fst).Nodup ∧
      ∀ kc ∈ (findConnections elements oracle).conns,
        kc.1 = connectionId kc.2.e1 kc.2.e2 := by
  intro elements oracle
  have hpp : ∀ (st : AnalysisState) (a b : ElementInfo) (r : Option ConnType),
      ((st.conns.map Prod.fst).Nodup ∧
        ∀ kc ∈ st.conns, kc.1 = connectionId kc.2.e1 kc.2.e2) →
      (((processPair st a b r).conns.map Prod.fst).Nodup ∧
        ∀ kc ∈ (processPair st a b r).conns,
          kc.1 = connectionId kc.2.e1 kc.2.e2) := by
    intro st a b r h
    match r with
    | none => exact h
    | some t =>
      refine ⟨mapSet_nodup st.conns _ _ h.1, ?_⟩
      intro kc hkc
      rcases mapSet_mem st.conns _ _ kc hkc with hkc | hkc
      · rw [hkc]
      · exact h.2 kc hkc
  unfold findConnections
  refine foldl_preserve
    (fun st : AnalysisState => (st.conns.map Prod.fst).Nodup ∧
      ∀ kc ∈ st.conns, kc.1 = connectionId kc.2.e1 kc.2.e2)
    _ (List.range elements.length) ⟨[], []⟩ ⟨by simp, by simp⟩ ?_
  intro st i hst
  refine foldl_preserve
    (fun st : AnalysisState => (st.conns.map Prod.fst).Nodup ∧
      ∀ kc ∈ st.conns, kc.1 = connectionId kc.2.e1 kc.2.e2)
    _ (List.range elements.length) st hst ?_
  intro st2 j hst2
  by_cases hij : i < j
  · rw [if_pos hij]
    cases hi : elements[i]? with
    | none => cases hj : elements[j]? <;> exact hst2
    | some a =>
      cases hj : elements[j]? with
      | none => exact hst2
      | some b => exact hpp st2 a b (oracle i j) hst2
  · rw [if_neg hij]
    exact hst2

/-- C1 witness: the amended theorem applied to a two-element scene with a
positive point result. -/
theorem connection_map_wellformed_witness :
    ("1-2", (⟨"1-2", ⟨1, 0⟩, ⟨2, 0⟩, .point⟩ : Connection)).1 =
      connectionId (⟨1, 0⟩ : ElementInfo) ⟨2, 0⟩ :=
  (connection_map_wellformed [⟨1, 0⟩, ⟨2, 0⟩] (fun _ _ => some .point)).2
    ("1-2", ⟨"1-2", ⟨1, 0⟩, ⟨2, 0⟩, .point⟩) (by decide)

/-- C1 counterexample: with expressIDs 10 and 2, the id depends on discovery
order: analyzing the same two elements in the two possible scene orders
produces the distinct ids "10-2" and "2-10", so connectionId(A,B) differs
from connectionId(B,A) — the ids are not joined in sorted numeric order. -/
theorem connection_id_order_dependent :
    connectionId ⟨10, 0⟩ ⟨2, 0⟩ ≠ connectionId ⟨2, 0⟩ ⟨10, 0⟩ ∧
    (analyzeConnectionsResult [⟨10, 0⟩, ⟨2, 0⟩] (fun _ _ => some .point)).map
        Prod.fst = ["10-2"] ∧
    (analyzeConnectionsResult [⟨2, 0⟩, ⟨10, 0⟩] (fun _ _ => some .point)).map
        Prod.fst = ["2-10"] := by
  refine ⟨by decide, by decide, by decide⟩

/-- Helper: `Map.set` with `connKey`-equal new entries maps `connKey`-equal
lists to `connKey`-equal lists. -/
theorem mapSet_connKey :
    ∀ (l l' : List (String × Connection)) (k : String) (c c' : Connection),
      l'.map connKey = l.map connKey → connKey (k, c') = connKey (k, c) →
      (mapSet k c' l').map connKey = (mapSet k c l).map connKey := by
  intro l
  induction l with
  | nil =>
    intro l' k c c' hmap hkc
    cases l' with
    | nil => simpa [mapSet] using hkc
    | cons kc0' rest' => simp at hmap
  | cons kc0 rest ih =>
    intro l' k c c' hmap hkc
    cases l' with
    | nil => simp at hmap
    | cons kc0' rest' =>
      rw [List.map_cons, List.map_cons] at hmap
      injection hmap with h0 hrest
      have h1 : kc0'.1 = kc0.1 := by
        have h2 := congrArg Prod.fst h0
        simpa [connKey] using h2
      rw [mapSet, mapSet]
      by_cases hk : kc0.1 = k
      · rw [if_pos hk, if_pos (h1.trans hk)]
        rw [List.map_cons, List.map_cons, hkc, hrest]
      · rw [if_neg hk, if_neg (fun hh => hk (h1.symm.trans hh))]
        rw [List.map_cons, List.map_cons, h0, ih rest' k c c' hrest hkc]

/-- C10: connection identity is derived from expressIDs alone — reassigning
every element's modelID arbitrarily changes neither the connection map (keys,
record ids, expressIDs, types) nor the expressID-keyed reverse index, so two
elements from different models sharing an expressID are indistinguishable in
connection ids and in the reverse index. -/
theorem connection_identity_ignores_model :
    ∀ (elements : List ElementInfo) (oracle : ℕ → ℕ → Option ConnType)
      (g : ElementInfo → ℕ),
      (findConnections (elements.map fun e => ⟨e.expressID, g e⟩) oracle).conns.map
          connKey = (findConnections elements oracle).conns.map connKey ∧
      (findConnections (elements.map fun e => ⟨e.expressID, g e⟩) oracle).index =
          (findConnections elements oracle).index := by
  intro elements oracle g
  unfold findConnections
  rw [List.length_map]
  refine foldl_rel
    (fun st st' : AnalysisState =>
      st'.conns.map connKey = st.conns.map connKey ∧ st'.index = st.index)
    _ _ (List.range elements.length) ⟨[], []⟩ ⟨[], []⟩ ⟨rfl, rfl⟩ ?_
  intro st st' i hR
  refine foldl_rel
    (fun st st' : AnalysisState =>
      st'.conns.map connKey = st.conns.map connKey ∧ st'.index = st.index)
    _ _ (List.range elements.length) st st' hR ?_
  intro st2 st2' j hR2
  by_cases hij : i < j
  · rw [if_pos hij, if_pos hij, List.getElem?_map, List.getElem?_map]
    cases hi : elements[i]? with
    | none => exact hR2
    | some a =>
      cases hj : elements[j]? with
      | none => exact hR2
      | some b =>
        cases ho : oracle i j with
        | none => exact hR2
        | some t =>
          refine ⟨?_, ?_⟩
          · exact mapSet_connKey st2.conns st2'.conns (connectionId a b) _ _ hR2.1 rfl
          · show updateElementConnections st2'.index _ _ _ =
              updateElementConnections st2.index _ _ _
            rw [hR2.2]
            rfl
  · rw [if_neg hij, if_neg hij]
    exact hR2

/-- C2: the multi-element point-junction refinement is implemented
(`refinePointIntersections`) but never invoked: `analyzeConnections` stores
the raw result of `findConnections` directly, so a two-element point
connection that belongs to no three-element junction survives the analysis,
although `refinePointIntersections` — had it been called with the scene's raw
contact points — would have deleted it. -/
theorem refinement_never_invoked :
    analyzeConnectionsResult [⟨1, 0⟩, ⟨2, 0⟩]
        (fun i j => if i == 0 && j == 1 then some .point else none) =
      [("1-2", ⟨"1-2", ⟨1, 0⟩, ⟨2, 0⟩, .point⟩)] ∧
    refinePointIntersections [⟨⟨0, 0, 0⟩, ⟨1, 0⟩, ⟨2, 0⟩⟩]
      [("1-2", ⟨"1-2", ⟨1, 0⟩, ⟨2, 0⟩, .point⟩)] = [] := by
  constructor
  · decide
  · simp [refinePointIntersections, isIntersectionMultiElement, bucketIds,
      setAdd, List.filter]

/-- C8 witness: the amended theorem applied to a concrete one-point list. -/
theorem area_fan_unit_square_witness :
    (calculateMeasurements ([⟨5, 5, 5⟩] : List Vec3)).area = none :=
  area_fan_unit_square.1 [⟨5, 5, 5⟩] (by norm_num)
